import Mathlib

/-!
# Verification of `RunNewsAgentScript/__init__.py`

A shallow embedding of the news-cleaning Azure Function:

* `PyVal` models the Python values that flow through the handler
  (JSON-serializable values plus `None`).
* `parse_date` embeds the date normalizer, including the CPython
  behaviours it relies on: `str.strip`/`str.split` whitespace handling,
  `re.search(r'\d+', ...)`, `timedelta` range checking (OverflowError is
  *not* in the `except` tuple of the source, so it escapes),
  `datetime.strptime(..., "%b %d %Y")`, `datetime.fromisoformat`, and
  Linux `strftime('%Y-%m-%d')` (glibc does not zero-pad `%Y`).
* `extract_news_content` embeds the JSON extractor: the `find`/`rfind`
  slice, the `re.sub(r'}\s*{', '}, {', ...)` repair, and a faithful model
  of `json.loads`.
* `mainHandler` embeds the orchestration `main`, parameterized by the
  responses of the two external HTTP calls (opaque collaborators).

Instants are modelled as integer seconds since the Unix epoch (UTC); the
fractional second of a real clock cannot change any produced date, since
subtracting a whole-second `timedelta` preserves it and it never moves the
floor over a day boundary.
-/

namespace NewsAgent

/-- Model of the Python values reaching the helpers: JSON values plus `None`.
`float` keeps the JSON lexeme verbatim (no claim computes with a float);
all non-string values are only ever inspected via `isinstance(_, str)`,
truthiness, indexing and `.get`, which this type supports exactly. -/
inductive PyVal where
  | str (s : String)
  | int (n : Int)
  | float (lexeme : String)
  | bool (b : Bool)
  | null
  | list (xs : List PyVal)
  | dict (kvs : List (String × PyVal))

/-- Python exceptions that can escape the helpers' `except` clauses. -/
inductive PyErr where
  | overflowError (msg : String)
  | typeError (msg : String)
  | attributeError (msg : String)

def PyErr.msg : PyErr → String
  | .overflowError m => m
  | .typeError m => m
  | .attributeError m => m

/-! ## Character classes (ASCII; the agent feeds ASCII text) -/

/-- Whitespace for `str.strip`, `str.split` and regex `\s`:
space, tab, newline, carriage return, vertical tab, form feed. -/
def isPySpace (c : Char) : Bool :=
  c = ' ' || c = '\t' || c = '\n' || c = '\r' || c = '\x0b' || c = '\x0c'

def digitsToNat (ds : List Char) : Nat :=
  ds.foldl (fun a c => a * 10 + (c.toNat - 48)) 0

/-! ## Calendar arithmetic

`civilFromDays` converts days-since-epoch to a proleptic Gregorian
(year, month, day), the arithmetic CPython's `datetime` performs via
ordinals; divisions are Euclidean, which agrees with Python's floor
division since every divisor is positive. -/

def civilFromDays (z : Int) : Int × Int × Int :=
  let z' := z + 719468
  let era := z'.ediv 146097
  let doe := z' - era * 146097
  let yoe := (doe - doe.ediv 1460 + doe.ediv 36524 - doe.ediv 146096).ediv 365
  let y := yoe + era * 400
  let doy := doe - (365 * yoe + yoe.ediv 4 - yoe.ediv 100)
  let mp := (5 * doy + 2).ediv 153
  let d := doy - (153 * mp + 2).ediv 5 + 1
  let m := mp + (if mp < 10 then 3 else -9)
  (if m ≤ 2 then y + 1 else y, m, d)

def dateOfSecs (t : Int) : Int × Int × Int :=
  civilFromDays (t.ediv 86400)

def isLeap (y : Int) : Bool :=
  (y % 4 = 0 && y % 100 ≠ 0) || y % 400 = 0

def daysInMonth (y : Int) (m : Nat) : Nat :=
  if m = 2 then (if isLeap y then 29 else 28)
  else if m = 4 ∨ m = 6 ∨ m = 9 ∨ m = 11 then 30
  else 31

/-! ## `strftime('%Y-%m-%d')` on Linux

glibc prints `%Y` as a plain decimal with no zero padding (year 33 gives
"33"), while `%m` and `%d` are zero-padded to two digits.
`natDigits`/`intStr` is the usual most-significant-first decimal
rendering (what Python's `str` produces on an `int`), written with
explicit fuel so that it computes by kernel reduction. -/

def natDigitsAux : Nat → Nat → List Char → List Char
  | 0, _, acc => acc
  | f + 1, n, acc =>
    if n < 10 then Nat.digitChar n :: acc
    else natDigitsAux f (n / 10) (Nat.digitChar (n % 10) :: acc)

def natDigits (n : Nat) : List Char := natDigitsAux (n + 1) n []

def intStr (i : Int) : String :=
  if i < 0 then String.mk ('-' :: natDigits i.natAbs) else String.mk (natDigits i.toNat)

def two (n : Int) : String :=
  (if n < 10 then "0" else "") ++ intStr n

def fmtYmd (y m d : Int) : String :=
  intStr y ++ "-" ++ two m ++ "-" ++ two d

/-- Embeds `datetime.now(timezone.utc).strftime('%Y-%m-%d')` at instant `t`. -/
def strfDate (t : Int) : String :=
  let ymd := dateOfSecs t
  fmtYmd ymd.1 ymd.2.1 ymd.2.2

/-! ## Python string primitives used by `parse_date` -/

def pyStrip (cs : List Char) : List Char :=
  ((cs.dropWhile isPySpace).reverse.dropWhile isPySpace).reverse

def pySplitAux : List Char → List Char → List (List Char)
  | [], acc => if acc.isEmpty then [] else [acc.reverse]
  | c :: cs, acc =>
    if isPySpace c then
      if acc.isEmpty then pySplitAux cs [] else acc.reverse :: pySplitAux cs []
    else pySplitAux cs (c :: acc)

/-- Embeds `str.split()` with no argument: split on whitespace runs, no empties. -/
def pySplit (cs : List Char) : List (List Char) := pySplitAux cs []

def isSubAt : List Char → List Char → Bool
  | [], _ => true
  | _ :: _, [] => false
  | n :: ns, h :: hs => n = h && isSubAt ns hs

/-- Substring containment, `needle in haystack` on Python strings. -/
def containsSub (needle : List Char) : List Char → Bool
  | [] => needle.isEmpty
  | c :: cs => isSubAt needle (c :: cs) || containsSub needle cs

/-- Embeds `re.search(r'\d+', s)`: the first maximal run of decimal digits. -/
def firstDigitRun : List Char → Option (List Char)
  | [] => none
  | c :: cs =>
    if c.isDigit then some ((c :: cs).takeWhile Char.isDigit)
    else firstDigitRun cs

/-! ## `timedelta` and `datetime` range checks

`timedelta` normalizes to days with floor division and requires
`|days| <= 999999999`; subtracting a `timedelta` from a `datetime`
requires the resulting year to stay within `MINYEAR = 1 .. MAXYEAR = 9999`.
Violations raise `OverflowError`, which the source's
`except (ValueError, IndexError, AttributeError)` does *not* catch.
(CPython may raise the equivalent `OverflowError` already while
converting an oversized argument, with a different message.) -/

def timedeltaOfSecs (secs : Int) : Except PyErr Int :=
  if (secs.ediv 86400).natAbs ≤ 999999999 then .ok secs
  else .error (.overflowError
    ("days=" ++ toString (secs.ediv 86400) ++ "; must have magnitude <= 999999999"))

def datetimeSub (now delta : Int) : Except PyErr Int :=
  let past := now - delta
  if 1 ≤ (dateOfSecs past).1 ∧ (dateOfSecs past).1 ≤ 9999 then .ok past
  else .error (.overflowError "date value out of range")

/-! ## The relative-date (`'ago'`) branch of `parse_date`

Mirrors the `try` block, where `ValueError`, `IndexError` and
`AttributeError` are caught and produce the current date, while any
`OverflowError` escapes. -/

def current_date_str (now : Int) : String := strfDate now

def agoBranch (cs : List Char) (now : Int) : Except PyErr String :=
  match pySplit cs with
  | [] => .ok (current_date_str now)          -- parts[0]: IndexError, caught
  | p0 :: rest =>
    match firstDigitRun p0 with
    | none => .ok (current_date_str now)      -- re.search -> None: AttributeError, caught
    | some ds =>
      match rest with
      | [] => .ok (current_date_str now)      -- parts[1]: IndexError, caught
      | p1 :: _ =>
        let value : Int := (digitsToNat ds : Nat)
        let unit : Char := (p1.headD ' ').toLower
        let secsPerUnit : Option Int :=
          if unit = 'h' then some 3600
          else if unit = 'd' then some 86400
          else if unit = 'm' then some 60
          else none
        match secsPerUnit with
        | none => .ok (current_date_str now)  -- unrecognized unit: return current date
        | some k =>
          match timedeltaOfSecs (value * k) with
          | .error e => .error e              -- OverflowError propagates
          | .ok delta =>
            match datetimeSub now delta with
            | .error e => .error e            -- OverflowError propagates
            | .ok past => .ok (strfDate past)

/-! ## `datetime.strptime(f"{date_string} {now.year}", "%b %d %Y")`

CPython's `_strptime` compiles the format to a regex, case-insensitively:
runs of whitespace in the format become `\s+`, `%b` becomes the
alternation of the C-locale abbreviated month names, `%d` becomes
`3[0-1]|[1-2]\d|0[1-9]|[1-9]| [1-9]`, `%Y` becomes `\d\d\d\d`; the match
is anchored at the start and must consume the whole string
("unconverted data remains" otherwise), after which the `datetime`
constructor validates the day against the month. -/

/-- The C-locale lowercase abbreviated month names of `_strptime`. -/
def monthTable : List (List Char × Nat) :=
  [(['j', 'a', 'n'], 1), (['f', 'e', 'b'], 2), (['m', 'a', 'r'], 3),
   (['a', 'p', 'r'], 4), (['m', 'a', 'y'], 5), (['j', 'u', 'n'], 6),
   (['j', 'u', 'l'], 7), (['a', 'u', 'g'], 8), (['s', 'e', 'p'], 9),
   (['o', 'c', 't'], 10), (['n', 'o', 'v'], 11), (['d', 'e', 'c'], 12)]

def lookupMonth (s : List Char) : List (List Char × Nat) → Option Nat
  | [] => none
  | (k, v) :: rest => if s = k then some v else lookupMonth s rest

def monthOfAbbrev (c1 c2 c3 : Char) : Option Nat :=
  lookupMonth [c1.toLower, c2.toLower, c3.toLower] monthTable

/-- Backtracking positions of a greedy `\s+`: the suffixes of `cs` after
consuming between all and one of its leading whitespace characters,
longest consumption first. Empty when there is no leading whitespace. -/
def wsTails (cs : List Char) : List (List Char) :=
  let run := (cs.takeWhile isPySpace).length
  (List.range run).map (fun i => cs.drop (run - i))

/-- The `%d` alternation, in CPython's order, with the unread remainder. -/
def dayAlts : List Char → List (Nat × List Char)
  | c1 :: c2 :: rest =>
    (if c1 = '3' ∧ (c2 = '0' ∨ c2 = '1') then [(30 + (c2.toNat - 48), rest)] else []) ++
    (if (c1 = '1' ∨ c1 = '2') ∧ c2.isDigit then
        [((c1.toNat - 48) * 10 + (c2.toNat - 48), rest)] else []) ++
    (if c1 = '0' ∧ c2.isDigit ∧ c2 ≠ '0' then [(c2.toNat - 48, rest)] else []) ++
    (if c1.isDigit ∧ c1 ≠ '0' then [(c1.toNat - 48, c2 :: rest)] else []) ++
    (if c1 = ' ' ∧ c2.isDigit ∧ c2 ≠ '0' then [(c2.toNat - 48, rest)] else [])
  | [c1] => if c1.isDigit ∧ c1 ≠ '0' then [(c1.toNat - 48, [])] else []
  | [] => []

/-- Matches `%Y` at the end of the pattern: exactly four digits, then end of input
(the full-match requirement makes any leftover a `ValueError`). -/
def year4 : List Char → Option Nat
  | [a, b, c, d] =>
    if a.isDigit ∧ b.isDigit ∧ c.isDigit ∧ d.isDigit then
      some (digitsToNat [a, b, c, d])
    else none
  | _ => none

def firstSome? {α β : Type} : List α → (α → Option β) → Option β
  | [], _ => none
  | a :: as, f =>
    match f a with
    | some b => some b
    | none => firstSome? as f

/-- The regex stage of `strptime(s, "%b %d %Y")`: `(year, month, day)`. -/
def strptimeBdY (cs : List Char) : Option (Nat × Nat × Nat) :=
  match cs with
  | c1 :: c2 :: c3 :: rest =>
    match monthOfAbbrev c1 c2 c3 with
    | none => none
    | some m =>
      firstSome? (wsTails rest) fun r1 =>
        firstSome? (dayAlts r1) fun dr =>
          firstSome? (wsTails dr.2) fun r3 =>
            match year4 r3 with
            | some y => some (y, m, dr.1)
            | none => none
  | _ => none

/-- Combines `strptime` with the `datetime(year, month, day)` validation. -/
def strptimeDate (cs : List Char) : Option (Nat × Nat × Nat) :=
  match strptimeBdY cs with
  | some (y, m, d) =>
    if 1 ≤ y ∧ 1 ≤ d ∧ d ≤ daysInMonth (y : Int) m then some (y, m, d)
    else none
  | none => none

/-! ## `datetime.fromisoformat(date_string.replace('Z', '+00:00'))`

Modelled on the documented pre-3.11 grammar
`YYYY-MM-DD[*HH[:MM[:SS[.fff[fff]]]][+HH:MM[:SS[.ffffff]]]]`
(Python 3.11 additionally accepts some ISO variants such as `YYYYMMDD`;
no claim depends on the difference, and every accepted string yields a
date validated to `1 <= year <= 9999`, `1 <= day <= daysInMonth`).
`str.replace` replaces every occurrence of `'Z'`, not only a trailing one. -/

def replaceZ (cs : List Char) : List Char :=
  (cs.map (fun c => if c = 'Z' then "+00:00".data else [c])).flatten

def digit2 : List Char → Option (Nat × List Char)
  | a :: b :: rest =>
    if a.isDigit ∧ b.isDigit then some (digitsToNat [a, b], rest) else none
  | _ => none

/-- Time-of-day part `HH[:MM[:SS[.fff[fff]]]]`, returning hour, minute,
second and the unread remainder (the candidate timezone suffix). -/
def isoHMS (cs : List Char) : Option (Nat × Nat × Nat × List Char) :=
  match digit2 cs with
  | none => none
  | some (h, r1) =>
    match r1 with
    | ':' :: r2 =>
      match digit2 r2 with
      | none => none
      | some (mi, r3) =>
        match r3 with
        | ':' :: r4 =>
          match digit2 r4 with
          | none => none
          | some (s, r5) =>
            match r5 with
            | '.' :: r6 =>
              let ds := r6.takeWhile Char.isDigit
              if ds.length = 3 ∨ ds.length = 6 then
                some (h, mi, s, r6.drop ds.length)
              else none
            | _ => some (h, mi, s, r5)
        | _ => some (h, mi, 0, r3)
    | _ => some (h, 0, 0, r1)

/-- Timezone suffix `±HH:MM[:SS[.ffffff]]`; `timezone()` additionally
requires the offset to be strictly less than 24 hours in magnitude. -/
def isoTzOk (cs : List Char) : Bool :=
  match cs with
  | [] => true
  | sign :: rest =>
    (sign = '+' || sign = '-') &&
    (match isoHMS rest with
     | some (h, mi, s, r) =>
       decide (r = [] ∧ (h * 3600 + mi * 60 + s < 86400) ∧ mi ≤ 59 ∧ s ≤ 59)
     | none => false)

def fromisoformat (cs : List Char) : Option (Nat × Nat × Nat) :=
  match cs with
  | y1 :: y2 :: y3 :: y4 :: '-' :: m1 :: m2 :: '-' :: d1 :: d2 :: rest =>
    if y1.isDigit ∧ y2.isDigit ∧ y3.isDigit ∧ y4.isDigit ∧
       m1.isDigit ∧ m2.isDigit ∧ d1.isDigit ∧ d2.isDigit then
      let y := digitsToNat [y1, y2, y3, y4]
      let m := digitsToNat [m1, m2]
      let d := digitsToNat [d1, d2]
      if 1 ≤ y ∧ 1 ≤ m ∧ m ≤ 12 ∧ 1 ≤ d ∧ d ≤ daysInMonth (y : Int) m then
        match rest with
        | [] => some (y, m, d)
        | _sep :: timecs =>
          match isoHMS timecs with
          | some (h, mi, s, r) =>
            if h ≤ 23 ∧ mi ≤ 59 ∧ s ≤ 59 ∧ isoTzOk r then some (y, m, d)
            else none
          | none => none
      else none
    else none
  | _ => none

/-! ## `parse_date` -/

/-- Embedding of `parse_date(date_string)` evaluated at instant `now`
(both `datetime.now(timezone.utc)` calls in the source read the same
clock; any drift between them is irrelevant to every claim and is not
modelled). `.error` models an uncaught exception escaping the function. -/
def parse_date (date_string : PyVal) (now : Int) : Except PyErr String :=
  match date_string with
  | .str s =>
    let ds := pyStrip s.data
    if containsSub "ago".data ds then
      agoBranch ds now
    else
      match strptimeDate (ds ++ ' ' :: (intStr (dateOfSecs now).1).data) with
      | some (y, m, d) => .ok (fmtYmd (y : Int) (m : Int) (d : Int))
      | none =>
        match fromisoformat (replaceZ ds) with
        | some (y, m, d) => .ok (fmtYmd (y : Int) (m : Int) (d : Int))
        | none => .ok (current_date_str now)
  | _ => .ok (current_date_str now)

/-! ## Python dict primitives

`lookupKvs` is `dict.__getitem__`/`dict.get`; `dictInsert` is
`dict.__setitem__`: an existing key keeps its position and gets the new
value, a fresh key is appended (Python dicts preserve insertion order). -/

def lookupKvs : List (String × PyVal) → String → Option PyVal
  | [], _ => none
  | (k', v) :: rest, k => if k' = k then some v else lookupKvs rest k

def dictInsert : List (String × PyVal) → String → PyVal → List (String × PyVal)
  | [], k, v => [(k, v)]
  | (k', v') :: rest, k, v =>
    if k' = k then (k, v) :: rest else (k', v') :: dictInsert rest k v

/-! ## `json.loads` (strict mode, the module default)

A fuel-indexed recursive-descent scanner following CPython's
`json/decoder.py`/`_json` scanner: JSON whitespace is ` \t\n\r`; object
keys are double-quoted strings built with last-wins duplicate handling;
strings reject raw control characters and unknown escapes;
`NaN`/`Infinity`/`-Infinity` are accepted as float constants; a number
with neither fraction nor exponent is an int, otherwise a float (kept as
its lexeme — no claim computes with a float value). A `\uXXXX` escape
yields its code point, with surrogate pairs combined; a *lone* surrogate,
which CPython would keep but a Lean `Char` cannot represent, is modelled
as a parse failure (unreachable in every claim). -/

def isJsonWs (c : Char) : Bool :=
  c = ' ' || c = '\t' || c = '\n' || c = '\r'

def skipWs (cs : List Char) : List Char := cs.dropWhile isJsonWs

def hexVal (c : Char) : Option Nat :=
  if '0' ≤ c ∧ c ≤ '9' then some (c.toNat - 48)
  else if 'a' ≤ c ∧ c ≤ 'f' then some (c.toNat - 87)
  else if 'A' ≤ c ∧ c ≤ 'F' then some (c.toNat - 55)
  else none

def hex4 (a b c d : Char) : Option Nat := do
  let x1 ← hexVal a
  let x2 ← hexVal b
  let x3 ← hexVal c
  let x4 ← hexVal d
  some (((x1 * 16 + x2) * 16 + x3) * 16 + x4)

/-- Scan a JSON string body (the opening quote already consumed),
returning the decoded characters and the input after the closing quote. -/
def jstrBody : Nat → List Char → Option (List Char × List Char)
  | 0, _ => none
  | _, [] => none
  | fuel + 1, c :: cs =>
    if c = '"' then some ([], cs)
    else if c = '\\' then
      match cs with
      | [] => none
      | e :: cs' =>
        let simpleEsc : Option Char :=
          if e = '"' then some '"'
          else if e = '\\' then some '\\'
          else if e = '/' then some '/'
          else if e = 'b' then some '\x08'
          else if e = 'f' then some '\x0c'
          else if e = 'n' then some '\n'
          else if e = 'r' then some '\r'
          else if e = 't' then some '\t'
          else none
        match simpleEsc with
        | some ch => (jstrBody fuel cs').map (fun p => (ch :: p.1, p.2))
        | none =>
          if e = 'u' then
            match cs' with
            | h1 :: h2 :: h3 :: h4 :: rest =>
              match hex4 h1 h2 h3 h4 with
              | none => none
              | some n =>
                if 0xD800 ≤ n ∧ n ≤ 0xDBFF then
                  match rest with
                  | '\\' :: 'u' :: g1 :: g2 :: g3 :: g4 :: rest2 =>
                    match hex4 g1 g2 g3 g4 with
                    | none => none
                    | some n2 =>
                      if 0xDC00 ≤ n2 ∧ n2 ≤ 0xDFFF then
                        let cp := 0x10000 + (n - 0xD800) * 0x400 + (n2 - 0xDC00)
                        (jstrBody fuel rest2).map (fun p => (Char.ofNat cp :: p.1, p.2))
                      else none  -- lone surrogate: not representable, see header
                  | _ => none    -- lone surrogate: not representable, see header
                else if 0xDC00 ≤ n ∧ n ≤ 0xDFFF then none  -- lone low surrogate
                else (jstrBody fuel rest).map (fun p => (Char.ofNat n :: p.1, p.2))
            | _ => none
          else none              -- invalid \escape: JSONDecodeError
    else if c.toNat < 0x20 then none  -- strict: raw control character
    else (jstrBody fuel cs).map (fun p => (c :: p.1, p.2))

/-- Scans `NUMBER_RE`: `(-?(?:0|[1-9]\d*))(\.\d+)?([eE][-+]?\d+)?`. -/
def jnumber (cs : List Char) : Option (PyVal × List Char) :=
  let negAndRest : Bool × List Char :=
    match cs with
    | '-' :: r => (true, r)
    | _ => (false, cs)
  let neg := negAndRest.1
  let cs1 := negAndRest.2
  match cs1 with
  | [] => none
  | c :: _ =>
    if ¬ c.isDigit then none
    else
      let intPart := if c = '0' then ['0'] else cs1.takeWhile Char.isDigit
      let rest1 := cs1.drop intPart.length
      let fracAndRest : List Char × List Char :=
        match rest1 with
        | '.' :: r =>
          let ds := r.takeWhile Char.isDigit
          if ds.isEmpty then ([], rest1) else ('.' :: ds, r.drop ds.length)
        | _ => ([], rest1)
      let fracPart := fracAndRest.1
      let rest2 := fracAndRest.2
      let expAndRest : List Char × List Char :=
        match rest2 with
        | e :: r =>
          if e = 'e' ∨ e = 'E' then
            let sgnAndRest : List Char × List Char :=
              match r with
              | s :: r2 => if s = '+' ∨ s = '-' then ([s], r2) else ([], r)
              | [] => ([], r)
            let ds := sgnAndRest.2.takeWhile Char.isDigit
            if ds.isEmpty then ([], rest2)
            else (e :: sgnAndRest.1 ++ ds, sgnAndRest.2.drop ds.length)
          else ([], rest2)
        | [] => ([], rest2)
      let expPart := expAndRest.1
      let rest3 := expAndRest.2
      if fracPart.isEmpty ∧ expPart.isEmpty then
        let v : Int := (digitsToNat intPart : Nat)
        some (.int (if neg then -v else v), rest1)
      else
        some (.float (String.mk ((if neg then ['-'] else []) ++
                intPart ++ fracPart ++ expPart)), rest3)

mutual

/-- Scan one JSON value starting at `cs` (no leading whitespace). -/
def jvalue : Nat → List Char → Option (PyVal × List Char)
  | 0, _ => none
  | fuel + 1, cs =>
    match cs with
    | [] => none
    | '{' :: r => jobject fuel r
    | '[' :: r => jarray fuel r
    | '"' :: r => (jstrBody fuel r).map (fun p => (.str (String.mk p.1), p.2))
    | 't' :: 'r' :: 'u' :: 'e' :: r => some (.bool true, r)
    | 'f' :: 'a' :: 'l' :: 's' :: 'e' :: r => some (.bool false, r)
    | 'n' :: 'u' :: 'l' :: 'l' :: r => some (.null, r)
    | 'N' :: 'a' :: 'N' :: r => some (.float "NaN", r)
    | 'I' :: 'n' :: 'f' :: 'i' :: 'n' :: 'i' :: 't' :: 'y' :: r => some (.float "Infinity", r)
    | '-' :: 'I' :: 'n' :: 'f' :: 'i' :: 'n' :: 'i' :: 't' :: 'y' :: r =>
      some (.float "-Infinity", r)
    | _ => jnumber cs

/-- Scan an object body, the opening `{` already consumed. -/
def jobject : Nat → List Char → Option (PyVal × List Char)
  | 0, _ => none
  | fuel + 1, cs =>
    match skipWs cs with
    | '}' :: r => some (.dict [], r)
    | cs' => jmembers fuel cs' []

/-- Scan `"key": value (, "key": value)* }`. -/
def jmembers : Nat → List Char → List (String × PyVal) →
    Option (PyVal × List Char)
  | 0, _, _ => none
  | fuel + 1, cs, acc =>
    match cs with
    | '"' :: r =>
      match jstrBody fuel r with
      | none => none
      | some (k, r1) =>
        match skipWs r1 with
        | ':' :: r2 =>
          match jvalue fuel (skipWs r2) with
          | none => none
          | some (v, r3) =>
            let acc' := dictInsert acc (String.mk k) v
            match skipWs r3 with
            | ',' :: r4 => jmembers fuel (skipWs r4) acc'
            | '}' :: r4 => some (.dict acc', r4)
            | _ => none
        | _ => none
    | _ => none

/-- Scan an array body, the opening `[` already consumed. -/
def jarray : Nat → List Char → Option (PyVal × List Char)
  | 0, _ => none
  | fuel + 1, cs =>
    match skipWs cs with
    | ']' :: r => some (.list [], r)
    | cs' => jitems fuel cs' []

/-- Scan `value (, value)* ]`. -/
def jitems : Nat → List Char → List PyVal → Option (PyVal × List Char)
  | 0, _, _ => none
  | fuel + 1, cs, acc =>
    match jvalue fuel cs with
    | none => none
    | some (v, r) =>
      match skipWs r with
      | ',' :: r2 => jitems fuel (skipWs r2) (v :: acc)
      | ']' :: r2 => some (.list (v :: acc).reverse, r2)
      | _ => none

end

/-- Embeds `json.loads`: one value, surrounding whitespace allowed, trailing
data ("Extra data") is an error. The fuel is an upper bound on scanner
steps, generous enough that it never runs out on `cs` (at most three
fuel decrements happen per character consumed). -/
def loads (cs : List Char) : Option PyVal :=
  let cs1 := skipWs cs
  match jvalue (4 * cs1.length + 8) cs1 with
  | some (v, rest) => if (skipWs rest).isEmpty then some v else none
  | none => none

/-! ## The extractor `extract_news_content` -/

/-- Scanner for `re.sub(r'}\s*{', '}, {', _)`, fuelled so that it
computes by kernel reduction (the fuel only needs to dominate the input
length; each recursive call consumes at least one character). -/
def fixJsonAux : Nat → List Char → List Char
  | 0, cs => cs
  | _ + 1, [] => []
  | fuel + 1, c :: rest =>
    if c = '}' then
      match rest.dropWhile isPySpace with
      | '{' :: tail => '}' :: ',' :: ' ' :: '{' :: fixJsonAux fuel tail
      | _ => c :: fixJsonAux fuel rest
    else c :: fixJsonAux fuel rest

/-- Embeds `re.sub(r'}\s*{', '}, {', cs)`: left-to-right, non-overlapping.
At a `}`, the greedy `\s*` can only reach the very next non-whitespace
character, so the rewrite fires exactly when that character is `{`;
otherwise scanning resumes right after the `}` (whitespace cannot start
a match, so the skipped run needs no re-examination). -/
def fixJson (cs : List Char) : List Char := fixJsonAux cs.length cs

/-- Embeds `str.find(c)`: index of the first occurrence, or `-1`. -/
def strFind (cs : List Char) (c : Char) : Int :=
  match cs.findIdx? (fun x => x = c) with
  | some i => (i : Int)
  | none => -1

/-- Embeds `str.rfind(c)`: index of the last occurrence, or `-1`. -/
def strRfind (cs : List Char) (c : Char) : Int :=
  match cs.reverse.findIdx? (fun x => x = c) with
  | some i => (cs.length : Int) - 1 - (i : Int)
  | none => -1

/-- The fixed-path access `response[0]['content']['parts'][0]['text']`,
with every `KeyError`/`TypeError`/`IndexError` (and a non-string `text`,
whose `.find` would raise `AttributeError`) collapsing to `none`, exactly
as the source's `except Exception` does. Subscripting a string yields a
one-character string; subscripting anything else with a string key only
succeeds on a dict. -/
def pyGetItemStr (v : PyVal) (k : String) : Option PyVal :=
  match v with
  | .dict kvs => lookupKvs kvs k
  | _ => none

def pyGetItem0 (v : PyVal) : Option PyVal :=
  match v with
  | .list (x :: _) => some x
  | .str s =>
    match s.data with
    | c :: _ => some (.str (String.mk [c]))
    | [] => none
  | _ => none

def rawContentOf (response : PyVal) : Option String :=
  match response with
  | .list (first_message :: _) =>
    match pyGetItemStr first_message "content" with
    | none => none
    | some content =>
      match pyGetItemStr content "parts" with
      | none => none
      | some parts =>
        match pyGetItem0 parts with
        | none => none
        | some p0 =>
          match pyGetItemStr p0 "text" with
          | some (.str t) => some t
          | _ => none
  | _ => none  -- not a list, or an empty list: `return None`

/-- Embedding of `extract_news_content(response)`. -/
def extract_news_content (response : PyVal) : Option PyVal :=
  match rawContentOf response with
  | none => none
  | some t =>
    let cs := t.data
    let json_start_index := strFind cs '{'
    let json_end_index := strRfind cs '}'
    if json_start_index = -1 ∨ json_end_index = -1 then none
    else
      let json_string := (cs.take (json_end_index.toNat + 1)).drop json_start_index.toNat
      loads (fixJson json_string)

/-! ## `json.dumps(..., indent=2)`

Pretty printing with `indent=2` and the default separators `(',', ': ')`
and `ensure_ascii=True`: every character outside `0x20..0x7e` is emitted
as a `\uXXXX` escape (astral code points as a surrogate pair). A `float`
is emitted as its stored lexeme; CPython would print `repr(float(...))`,
which can differ in spelling — no claim serializes a float. -/

def hexDigit (n : Nat) : Char :=
  if n < 10 then Char.ofNat (48 + n) else Char.ofNat (87 + n)

def hex4Chars (n : Nat) : List Char :=
  [hexDigit (n / 4096 % 16), hexDigit (n / 256 % 16),
   hexDigit (n / 16 % 16), hexDigit (n % 16)]

def escChar (c : Char) : List Char :=
  if c = '"' then ['\\', '"']
  else if c = '\\' then ['\\', '\\']
  else if c = '\n' then ['\\', 'n']
  else if c = '\r' then ['\\', 'r']
  else if c = '\t' then ['\\', 't']
  else if c = '\x08' then ['\\', 'b']
  else if c = '\x0c' then ['\\', 'f']
  else if 0x20 ≤ c.toNat ∧ c.toNat ≤ 0x7e then [c]
  else if c.toNat < 0x10000 then '\\' :: 'u' :: hex4Chars c.toNat
  else
    let v := c.toNat - 0x10000
    ('\\' :: 'u' :: hex4Chars (0xD800 + v / 0x400)) ++
    ('\\' :: 'u' :: hex4Chars (0xDC00 + v % 0x400))

def dumpsStr (s : String) : List Char :=
  '"' :: (s.data.map escChar).flatten ++ ['"']

def indentChars (n : Nat) : List Char := List.replicate n ' '

/-- Join already-serialized members with `",\n" ++ indent`, prefixing the
first member with its indentation as well. -/
def joinSep (items : List (List Char)) (lvl : Nat) : List Char :=
  match items with
  | [] => []
  | i :: is => indentChars lvl ++ i ++
      (is.map (fun j => ',' :: '\n' :: indentChars lvl ++ j)).flatten

mutual

/-- Serialize one value; `lvl` is the current indentation width. -/
def dumpsVal : PyVal → Nat → List Char
  | .null, _ => "null".data
  | .bool true, _ => "true".data
  | .bool false, _ => "false".data
  | .int n, _ => (toString n).data
  | .float lex, _ => lex.data
  | .str s, _ => dumpsStr s
  | .list [], _ => "[]".data
  | .list (x :: xs), lvl =>
    '[' :: '\n' ::
      (joinSep (dumpsItems (x :: xs) (lvl + 2)) (lvl + 2)) ++
      '\n' :: indentChars lvl ++ [']']
  | .dict [], _ => "\x7b\x7d".data
  | .dict (kv :: kvs), lvl =>
    '\x7b' :: '\n' ::
      (joinSep (dumpsEntries (kv :: kvs) (lvl + 2)) (lvl + 2)) ++
      '\n' :: indentChars lvl ++ ['\x7d']

def dumpsItems : List PyVal → Nat → List (List Char)
  | [], _ => []
  | v :: vs, lvl => dumpsVal v lvl :: dumpsItems vs lvl

def dumpsEntries : List (String × PyVal) → Nat → List (List Char)
  | [], _ => []
  | (k, v) :: kvs, lvl =>
    (dumpsStr k ++ ':' :: ' ' :: dumpsVal v lvl) :: dumpsEntries kvs lvl

end

/-- Embeds `json.dumps(v, indent=2)`. -/
def dumps (v : PyVal) : String := String.mk (dumpsVal v 0)

/-! ## Truthiness (`if session_id:`, `if news_data ...`) -/

/-- A float lexeme (as produced by `jnumber`, or a constant) is falsy
exactly when its value is zero, i.e. every mantissa digit is `0`. -/
def floatLexTruthy (lex : String) : Bool :=
  match lex.data with
  | 'N' :: _ => true      -- NaN
  | 'I' :: _ => true      -- Infinity
  | '-' :: 'I' :: _ => true
  | ds => (ds.takeWhile (fun c => c ≠ 'e' ∧ c ≠ 'E')).any
      (fun c => c.isDigit ∧ c ≠ '0')

def truthy : PyVal → Bool
  | .null => false
  | .bool b => b
  | .int n => n ≠ 0
  | .str s => s ≠ ""
  | .float lex => floatLexTruthy lex
  | .list xs => ¬ xs.isEmpty
  | .dict kvs => ¬ kvs.isEmpty

def pyTypeName : PyVal → String
  | .str _ => "str"
  | .int _ => "int"
  | .float _ => "float"
  | .bool _ => "bool"
  | .null => "NoneType"
  | .list _ => "list"
  | .dict _ => "dict"

def noGetMsg (v : PyVal) : String :=
  "'" ++ pyTypeName v ++ "' object has no attribute 'get'"

/-- Embeds `'news' in news_data`: key membership on a dict, element equality on
a list (only a string element can equal a string), substring containment
on a string, `TypeError` otherwise. -/
def pyContains (v : PyVal) (k : String) : Except PyErr Bool :=
  match v with
  | .dict kvs => .ok ((lookupKvs kvs k).isSome)
  | .list xs => .ok (xs.any (fun x => match x with | .str s => s = k | _ => false))
  | .str s => .ok (containsSub k.data s.data)
  | _ => .error (.typeError ("argument of type '" ++ pyTypeName v ++ "' is not iterable"))

/-! ## The HTTP handler `main`

The two outbound calls are opaque external collaborators: `mainHandler`
takes their decoded JSON responses as parameters (`session_response` from
`create_session`, `conversation_response` from `run_conversation`) and
the clock instant `now`. The `try`/`except Exception` wrapper turns any
escaped exception into the generic 500 response. -/

structure HttpResponse where
  body : String
  status_code : Nat
  mimetype : Option String

/-- Embeds `article['date'] = parse_date(article.get('date'))` for one article;
a non-dict article raises (`.get` then item assignment). -/
def normArticle (a : PyVal) (now : Int) : Except PyErr PyVal :=
  match a with
  | .dict kvs =>
    match parse_date ((lookupKvs kvs "date").getD .null) now with
    | .ok ds => .ok (.dict (dictInsert kvs "date" (.str ds)))
    | .error e => .error e
  | _ => .error (.attributeError (noGetMsg a))

/-- The loop over the articles, left to right; the first raised exception
aborts the loop and propagates. -/
def normArticles : List PyVal → Int → Except PyErr (List PyVal)
  | [], _ => .ok []
  | a :: rest, now =>
    match normArticle a now with
    | .error e => .error e
    | .ok a' =>
      match normArticles rest now with
      | .error e => .error e
      | .ok rest' => .ok (a' :: rest')

/-- Embeds `for article in news_data['news']: ...` — iterating a non-list value
either does nothing (empty string/dict) or raises on its first element;
a non-iterable raises `TypeError`. -/
def normNews (v : PyVal) (now : Int) : Except PyErr PyVal :=
  match v with
  | .list arts =>
    match normArticles arts now with
    | .ok arts' => .ok (.list arts')
    | .error e => .error e
  | .str s =>
    if s = "" then .ok v
    else .error (.attributeError "'str' object has no attribute 'get'")
  | .dict kvs =>
    if kvs.isEmpty then .ok v
    else .error (.attributeError "'str' object has no attribute 'get'")
  | _ => .error (.typeError ("'" ++ pyTypeName v ++ "' object is not iterable"))

/-- Reads `news_data['news']` (guarded by `'news' in news_data`). -/
def newsValOf (nd : PyVal) : PyVal :=
  match nd with
  | .dict kvs => (lookupKvs kvs "news").getD .null
  | _ => .null

/-- The in-place mutation of the `news` list seen from the payload. -/
def setNews (nd news' : PyVal) : PyVal :=
  match nd with
  | .dict kvs => .dict (dictInsert kvs "news" news')
  | _ => nd

/-- The body of `main`'s `try` block after `session_id` was read. -/
def mainWithSession (session_id conversation_response : PyVal) (now : Int) :
    Except PyErr HttpResponse :=
  if truthy session_id then
    match extract_news_content conversation_response with
    | some nd =>
      -- `news_data and 'news' in news_data` short-circuits on falsy
      if truthy nd then
        match pyContains nd "news" with
        | .error e => .error e
        | .ok hasNews =>
          if hasNews then
            match normNews (newsValOf nd) now with
            | .error e => .error e
            | .ok news' =>
              .ok ⟨dumps (setNews nd news'), 200, some "application/json"⟩
          else .ok ⟨"Failed to parse news data from response", 500, none⟩
      else .ok ⟨"Failed to parse news data from response", 500, none⟩
    | none => .ok ⟨"Failed to parse news data from response", 500, none⟩
  else .ok ⟨"Failed to get session ID from response", 500, none⟩

/-- The body of `main`'s `try` block: `session_response.get('id')`, then
the rest of the handler. -/
def mainTry (session_response conversation_response : PyVal) (now : Int) :
    Except PyErr HttpResponse :=
  match session_response with
  | .dict kvs => mainWithSession ((lookupKvs kvs "id").getD .null)
      conversation_response now
  | other => .error (.attributeError (noGetMsg other))

/-- Embedding of `main`, after the two external calls returned
`session_response` and `conversation_response`. -/
def mainHandler (session_response conversation_response : PyVal) (now : Int) :
    HttpResponse :=
  match mainTry session_response conversation_response now with
  | .ok r => r
  | .error e => ⟨"An unexpected error occurred: " ++ e.msg, 500, none⟩

/-! ## Definitions used to state the claims -/

/-- The shape produced by `strftime('%Y-%m-%d')` on Linux: an unpadded
1–4 digit year, then `-MM-DD` with two-digit zero-padded month and day.
The strict `YYYY-MM-DD` of the spec is the 10-character case. -/
def looseDateShape (s : String) : Bool :=
  let cs := s.data
  let yd := cs.takeWhile Char.isDigit
  let rest := cs.drop yd.length
  decide (1 ≤ yd.length) && decide (yd.length ≤ 4) &&
  (match rest with
   | '-' :: m1 :: m2 :: '-' :: d1 :: d2 :: [] =>
     m1.isDigit && m2.isDigit && d1.isDigit && d2.isDigit
   | _ => false)

/-- The value an article holds after the loop body ran on it (assuming
`parse_date` returned): its `date` key is set, in place, to the
normalized string; used to state what `main` does to each article. -/
def normArticleD (a : PyVal) (now : Int) : PyVal :=
  match a with
  | .dict kvs =>
    match parse_date ((lookupKvs kvs "date").getD .null) now with
    | .ok s => .dict (dictInsert kvs "date" (.str s))
    | .error _ => a
  | _ => a

/-- A conversation response carrying `text` at the nested path the
extractor reads (the shape the agent service returns). -/
def replyWithText (t : String) : PyVal :=
  .list [.dict [("content", .dict [("parts", .list [.dict [("text", .str t)]])])]]

/-! # Helper lemmas -/

theorem emod_facts (a b : Int) (hb : 0 < b) :
    b * (a.ediv b) + a.emod b = a ∧ 0 ≤ a.emod b ∧ a.emod b < b :=
  ⟨Int.ediv_add_emod a b, Int.emod_nonneg a (by omega), Int.emod_lt_of_pos a hb⟩

theorem digitChar_isDigit : ∀ r < 10, (Nat.digitChar r).isDigit = true := by decide

theorem digitChar_toNat : ∀ r < 10, (Nat.digitChar r).toNat = 48 + r := by decide

theorem digitChar_not_pySpace : ∀ r < 10, isPySpace (Nat.digitChar r) = false := by decide

theorem isDigit_toNat {c : Char} (h : c.isDigit = true) :
    48 ≤ c.toNat ∧ c.toNat ≤ 57 := by
  simp only [Char.isDigit, Bool.and_eq_true, decide_eq_true_eq] at h
  obtain ⟨h1, h2⟩ := h
  exact ⟨h1, h2⟩

theorem natDigitsAux_small (f n : Nat) (acc : List Char) (hf : 1 ≤ f) (hn : n < 10) :
    natDigitsAux f n acc = Nat.digitChar n :: acc := by
  obtain ⟨g, rfl⟩ : ∃ g, f = g + 1 := ⟨f - 1, by omega⟩
  simp [natDigitsAux, hn]

theorem natDigitsAux_step (f n : Nat) (acc : List Char) (hf : 1 ≤ f) (hn : 10 ≤ n) :
    natDigitsAux f n acc = natDigitsAux (f - 1) (n / 10) (Nat.digitChar (n % 10) :: acc) := by
  obtain ⟨g, rfl⟩ : ∃ g, f = g + 1 := ⟨f - 1, by omega⟩
  simp [natDigitsAux, Nat.not_lt.2 hn]

theorem natDigits_eq1 (n : Nat) (h : n < 10) : natDigits n = [Nat.digitChar n] :=
  natDigitsAux_small _ _ _ (by omega) h

theorem natDigits_eq2 (n : Nat) (h1 : 10 ≤ n) (h2 : n < 100) :
    natDigits n = [Nat.digitChar (n / 10), Nat.digitChar (n % 10)] := by
  unfold natDigits
  rw [natDigitsAux_step _ _ _ (by omega) h1,
    natDigitsAux_small _ _ _ (by omega) (by omega)]

theorem natDigits_eq3 (n : Nat) (h1 : 100 ≤ n) (h2 : n < 1000) :
    natDigits n = [Nat.digitChar (n / 100), Nat.digitChar (n / 10 % 10),
      Nat.digitChar (n % 10)] := by
  unfold natDigits
  rw [natDigitsAux_step _ _ _ (by omega) (by omega),
    natDigitsAux_step _ _ _ (by omega) (by omega),
    natDigitsAux_small _ _ _ (by omega) (by omega),
    Nat.div_div_eq_div_mul]

theorem natDigits_eq4 (n : Nat) (h1 : 1000 ≤ n) (h2 : n < 10000) :
    natDigits n = [Nat.digitChar (n / 1000), Nat.digitChar (n / 100 % 10),
      Nat.digitChar (n / 10 % 10), Nat.digitChar (n % 10)] := by
  unfold natDigits
  rw [natDigitsAux_step _ _ _ (by omega) (by omega),
    natDigitsAux_step _ _ _ (by omega) (by omega),
    natDigitsAux_step _ _ _ (by omega) (by omega),
    natDigitsAux_small _ _ _ (by omega) (by omega)]
  simp only [Nat.div_div_eq_div_mul]

theorem intStr_nonneg (i : Int) (h : 0 ≤ i) : intStr i = String.mk (natDigits i.toNat) := by
  simp [intStr, Int.not_lt.2 h]

theorem natDigits_cases (n : Nat) (h2 : n ≤ 9999) :
    ∃ l, natDigits n = l ∧ 1 ≤ l.length ∧ l.length ≤ 4 ∧
      (∀ c ∈ l, c.isDigit = true) ∧ (1000 ≤ n → l.length = 4) := by
  rcases Nat.lt_or_ge n 10 with h | h
  · exact ⟨_, natDigits_eq1 n h, by simp, by simp, by
      simp only [List.mem_singleton]
      rintro c rfl
      exact digitChar_isDigit n h, by omega⟩
  rcases Nat.lt_or_ge n 100 with h' | h'
  · refine ⟨_, natDigits_eq2 n h h', by simp, by simp, ?_, by omega⟩
    intro c hc
    simp only [List.mem_cons, List.not_mem_nil, or_false] at hc
    rcases hc with rfl | rfl
    · exact digitChar_isDigit _ (by omega)
    · exact digitChar_isDigit _ (by omega)
  rcases Nat.lt_or_ge n 1000 with h'' | h''
  · refine ⟨_, natDigits_eq3 n h' h'', by simp, by simp, ?_, by omega⟩
    intro c hc
    simp only [List.mem_cons, List.not_mem_nil, or_false] at hc
    rcases hc with rfl | rfl | rfl
    · exact digitChar_isDigit _ (by omega)
    · exact digitChar_isDigit _ (by omega)
    · exact digitChar_isDigit _ (by omega)
  · refine ⟨_, natDigits_eq4 n h'' (by omega), by simp, by simp, ?_, by simp⟩
    intro c hc
    simp only [List.mem_cons, List.not_mem_nil, or_false] at hc
    rcases hc with rfl | rfl | rfl | rfl
    · exact digitChar_isDigit _ (by omega)
    · exact digitChar_isDigit _ (by omega)
    · exact digitChar_isDigit _ (by omega)
    · exact digitChar_isDigit _ (by omega)

theorem two_data (m : Int) (h1 : 0 ≤ m) (h2 : m ≤ 99) :
    ∃ u v, (two m).data = [u, v] ∧ u.isDigit = true ∧ v.isDigit = true := by
  have hk : m = (m.toNat : Int) := (Int.toNat_of_nonneg h1).symm
  rcases Int.lt_or_le m 10 with h | h
  · refine ⟨'0', Nat.digitChar m.toNat, ?_, rfl, digitChar_isDigit _ (by omega)⟩
    simp only [two, if_pos h, intStr_nonneg m h1, String.data_append]
    rw [natDigits_eq1 m.toNat (by omega)]
    rfl
  · refine ⟨Nat.digitChar (m.toNat / 10), Nat.digitChar (m.toNat % 10), ?_,
      digitChar_isDigit _ (by omega), digitChar_isDigit _ (Nat.mod_lt _ (by omega))⟩
    simp only [two, if_neg (Int.not_lt.2 h), intStr_nonneg m h1, String.data_append]
    rw [natDigits_eq2 m.toNat (by omega) (by omega)]
    rfl

theorem takeWhile_digits_append (l rest : List Char) (hd : ∀ c ∈ l, c.isDigit = true)
    (hr : rest.takeWhile Char.isDigit = []) :
    (l ++ rest).takeWhile Char.isDigit = l := by
  induction l with
  | nil => simpa using hr
  | cons c cs ih =>
    rw [List.cons_append, List.takeWhile_cons_of_pos (hd c (by simp)),
      ih (fun c hc => hd c (by simp [hc]))]

theorem fmtYmd_loose (y m d : Int) (hy1 : 1 ≤ y) (hy2 : y ≤ 9999)
    (hm1 : 0 ≤ m) (hm2 : m ≤ 99) (hd1 : 0 ≤ d) (hd2 : d ≤ 99) :
    looseDateShape (fmtYmd y m d) = true ∧
      ((1000 ≤ y → (fmtYmd y m d).length = 10) ∧ (fmtYmd y m d).length ≤ 10) := by
  obtain ⟨l, hl, hlen1, hlen4, hdig, hlen10⟩ := natDigits_cases y.toNat (by omega)
  obtain ⟨u, v, huv, hu, hv⟩ := two_data m hm1 hm2
  obtain ⟨p, q, hpq, hp, hq⟩ := two_data d hd1 hd2
  have hdata : (fmtYmd y m d).data = l ++ '-' :: u :: v :: '-' :: p :: q :: [] := by
    simp only [fmtYmd, String.data_append, intStr_nonneg y (by omega), hl, huv, hpq]
    simp
  constructor
  · simp only [looseDateShape, hdata]
    rw [takeWhile_digits_append l _ hdig (List.takeWhile_cons_of_neg (by simp)),
      List.drop_left]
    simp [hu, hv, hp, hq]
    omega
  · constructor
    · intro hy
      have h4 : l.length = 4 := hlen10 (by omega)
      simp only [String.length, hdata, List.length_append, List.length_cons,
        List.length_nil, h4]
    · have h4 : l.length ≤ 4 := hlen4
      simp only [String.length, hdata, List.length_append, List.length_cons,
        List.length_nil]
      omega

/-- Month and day components of `civilFromDays` are always two-digit
renderable (the month is in fact 1..12 and the day 1..31; only the bounds
needed for the `%m`/`%d` shape are proved). -/
theorem civil_md (z : Int) :
    1 ≤ (civilFromDays z).2.1 ∧ (civilFromDays z).2.1 ≤ 99 ∧
    1 ≤ (civilFromDays z).2.2 ∧ (civilFromDays z).2.2 ≤ 31 := by
  unfold civilFromDays
  simp only []
  obtain ⟨z1, z2, z3⟩ := emod_facts (z + 719468) 146097 (by omega)
  have hdoe : z + 719468 - (z + 719468).ediv 146097 * 146097 = (z + 719468).emod 146097 := by
    omega
  rw [hdoe]
  generalize hdg : (z + 719468).emod 146097 = doe at *
  have h0 : 0 ≤ doe := z2
  have h1 : doe ≤ 146096 := by omega
  clear hdg hdoe z1 z2 z3
  -- fix the quantities of the algorithm
  obtain ⟨e1, e2, e3⟩ := emod_facts doe 1460 (by omega)
  obtain ⟨f1, f2, f3⟩ := emod_facts doe 36524 (by omega)
  obtain ⟨g1, g2, g3⟩ := emod_facts doe 146096 (by omega)
  generalize hq1 : doe.ediv 1460 = q1 at *
  generalize hq2 : doe.ediv 36524 = q2 at *
  generalize hq3 : doe.ediv 146096 = q3 at *
  obtain ⟨y1, y2, y3⟩ := emod_facts (doe - q1 + q2 - q3) 365 (by omega)
  generalize hyo : (doe - q1 + q2 - q3).ediv 365 = yoe at *
  obtain ⟨a1, a2, a3⟩ := emod_facts yoe 4 (by omega)
  obtain ⟨b1, b2, b3⟩ := emod_facts yoe 100 (by omega)
  generalize hq4 : yoe.ediv 4 = q4 at *
  generalize hq5 : yoe.ediv 100 = q5 at *
  obtain ⟨m1, m2, m3⟩ := emod_facts (5 * (doe - (365 * yoe + q4 - q5)) + 2) 153 (by omega)
  generalize hmp : (5 * (doe - (365 * yoe + q4 - q5)) + 2).ediv 153 = mp at *
  obtain ⟨d1, d2, d3⟩ := emod_facts (153 * mp + 2) 5 (by omega)
  generalize hdd : (153 * mp + 2).ediv 5 = dd at *
  have hmpb : -1 ≤ mp ∧ mp ≤ 96 := by omega
  refine ⟨?_, ?_, by omega, by omega⟩ <;> split <;> omega

/-- Shows `strftime('%Y-%m-%d')` output has the `Y{1,4}-MM-DD` shape whenever
the instant's year is in `datetime`'s range, and is the strict ten
character `YYYY-MM-DD` whenever the year has four digits. -/
theorem strfDate_loose (t : Int) (h1 : 1 ≤ (dateOfSecs t).1) (h2 : (dateOfSecs t).1 ≤ 9999) :
    looseDateShape (strfDate t) = true ∧
      (1000 ≤ (dateOfSecs t).1 → (strfDate t).length = 10) := by
  have hmd := civil_md (t.ediv 86400)
  have hs : strfDate t = fmtYmd (dateOfSecs t).1 (dateOfSecs t).2.1 (dateOfSecs t).2.2 := rfl
  have hmd' : 1 ≤ (dateOfSecs t).2.1 ∧ (dateOfSecs t).2.1 ≤ 99 ∧
      1 ≤ (dateOfSecs t).2.2 ∧ (dateOfSecs t).2.2 ≤ 31 := hmd
  obtain ⟨c1, c2, c3, c4⟩ := hmd'
  have := fmtYmd_loose (dateOfSecs t).1 (dateOfSecs t).2.1 (dateOfSecs t).2.2
    h1 h2 (by omega) (by omega) (by omega) (by omega)
  rw [hs]
  exact ⟨this.1, this.2.1⟩

theorem timedeltaOfSecs_err {s : Int} {e : PyErr} (h : timedeltaOfSecs s = .error e) :
    ∃ msg, e = .overflowError msg := by
  unfold timedeltaOfSecs at h
  split at h
  · exact absurd h (by simp)
  · exact ⟨_, (Except.error.inj h).symm⟩

theorem datetimeSub_err {now d : Int} {e : PyErr} (h : datetimeSub now d = .error e) :
    ∃ msg, e = .overflowError msg := by
  unfold datetimeSub at h
  dsimp only [] at h
  split at h
  · exact absurd h (by simp)
  · exact ⟨_, (Except.error.inj h).symm⟩

theorem datetimeSub_ok {now d p : Int} (h : datetimeSub now d = .ok p) :
    1 ≤ (dateOfSecs p).1 ∧ (dateOfSecs p).1 ≤ 9999 := by
  unfold datetimeSub at h
  dsimp only [] at h
  split at h
  · obtain rfl : now - d = p := Except.ok.inj h
    assumption
  · exact absurd h (by simp)

theorem firstSome?_some {α β : Type} {l : List α} {f : α → Option β} {b : β}
    (h : firstSome? l f = some b) : ∃ a ∈ l, f a = some b := by
  induction l with
  | nil => simp [firstSome?] at h
  | cons x xs ih =>
    unfold firstSome? at h
    cases hx : f x with
    | some b' =>
      rw [hx] at h
      exact ⟨x, by simp, by simp [hx, ← h]⟩
    | none =>
      rw [hx] at h
      obtain ⟨a, ha, hfa⟩ := ih h
      exact ⟨a, by simp [ha], hfa⟩

theorem digitsToNat_four {a b c d : Char} (ha : a.isDigit = true) (hb : b.isDigit = true)
    (hc : c.isDigit = true) (hd : d.isDigit = true) : digitsToNat [a, b, c, d] ≤ 9999 := by
  obtain ⟨ha1, ha2⟩ := isDigit_toNat ha
  obtain ⟨hb1, hb2⟩ := isDigit_toNat hb
  obtain ⟨hc1, hc2⟩ := isDigit_toNat hc
  obtain ⟨hd1, hd2⟩ := isDigit_toNat hd
  simp only [digitsToNat, List.foldl]
  omega

theorem year4_bounds {cs : List Char} {y : Nat} (h : year4 cs = some y) : y ≤ 9999 := by
  unfold year4 at h
  split at h
  · rename_i a b c d
    split at h
    · obtain rfl : digitsToNat [a, b, c, d] = y := Option.some.inj h
      rename_i hds
      exact digitsToNat_four (by simp [hds.1]) (by simp [hds.2.1])
        (by simp [hds.2.2.1]) (by simp [hds.2.2.2])
    · exact absurd h (by simp)
  · exact absurd h (by simp)

theorem lookupMonth_mem {s : List Char} {tbl : List (List Char × Nat)} {m : Nat}
    (h : lookupMonth s tbl = some m) : m ∈ tbl.map Prod.snd := by
  induction tbl with
  | nil => simp [lookupMonth] at h
  | cons kv rest ih =>
    obtain ⟨k, v⟩ := kv
    unfold lookupMonth at h
    split at h
    · simp [Option.some.inj h]
    · simp [ih h]

theorem monthOfAbbrev_bounds {a b c : Char} {m : Nat} (h : monthOfAbbrev a b c = some m) :
    1 ≤ m ∧ m ≤ 12 := by
  have hm := lookupMonth_mem h
  simp only [monthTable, List.map_cons, List.map_nil, List.mem_cons,
    List.not_mem_nil, or_false] at hm
  omega

theorem strptimeBdY_bounds {cs : List Char} {y m d : Nat}
    (h : strptimeBdY cs = some (y, m, d)) : 1 ≤ m ∧ m ≤ 12 ∧ y ≤ 9999 := by
  unfold strptimeBdY at h
  split at h
  · rename_i c1 c2 c3 rest
    cases hma : monthOfAbbrev c1 c2 c3 with
    | none => rw [hma] at h; exact absurd h (by simp)
    | some mo =>
      rw [hma] at h
      obtain ⟨r1, _, h1⟩ := firstSome?_some h
      obtain ⟨dr, _, h2⟩ := firstSome?_some h1
      obtain ⟨r3, _, h3⟩ := firstSome?_some h2
      cases hy4 : year4 r3 with
      | none => rw [hy4] at h3; exact absurd h3 (by simp)
      | some y' =>
        rw [hy4] at h3
        simp only [Option.some.injEq, Prod.mk.injEq] at h3
        obtain ⟨rfl, rfl, rfl⟩ := h3
        obtain ⟨hm1, hm2⟩ := monthOfAbbrev_bounds hma
        exact ⟨hm1, hm2, year4_bounds hy4⟩
  · exact absurd h (by simp)

theorem daysInMonth_le31 (y : Int) (m : Nat) : daysInMonth y m ≤ 31 := by
  unfold daysInMonth
  split_ifs <;> omega

theorem strptimeDate_bounds {cs : List Char} {y m d : Nat}
    (h : strptimeDate cs = some (y, m, d)) :
    1 ≤ y ∧ y ≤ 9999 ∧ 1 ≤ m ∧ m ≤ 12 ∧ 1 ≤ d ∧ d ≤ 31 := by
  unfold strptimeDate at h
  split at h
  · rename_i y' m' d' hb
    split at h
    · simp only [Option.some.injEq, Prod.mk.injEq] at h
      obtain ⟨rfl, rfl, rfl⟩ := h
      obtain ⟨hm1, hm2, hy9⟩ := strptimeBdY_bounds hb
      rename_i hv
      exact ⟨hv.1, hy9, hm1, hm2, hv.2.1, le_trans hv.2.2 (daysInMonth_le31 _ _)⟩
    · exact absurd h (by simp)
  · exact absurd h (by simp)

theorem fromisoformat_bounds {cs : List Char} {y m d : Nat}
    (h : fromisoformat cs = some (y, m, d)) :
    1 ≤ y ∧ y ≤ 9999 ∧ 1 ≤ m ∧ m ≤ 12 ∧ 1 ≤ d ∧ d ≤ 31 := by
  unfold fromisoformat at h
  split at h
  · rename_i y1 y2 y3 y4 m1 m2 d1 d2 rest
    split at h
    · rename_i hdigs
      try dsimp only [] at h
      have hy9 : digitsToNat [y1, y2, y3, y4] ≤ 9999 :=
        digitsToNat_four (by simp [hdigs.1]) (by simp [hdigs.2.1])
          (by simp [hdigs.2.2.1]) (by simp [hdigs.2.2.2.1])
      have hd31 : daysInMonth (digitsToNat [y1, y2, y3, y4] : Int)
          (digitsToNat [m1, m2]) ≤ 31 := daysInMonth_le31 _ _
      split at h
      · rename_i hv
        split at h
        · simp only [Option.some.injEq, Prod.mk.injEq] at h
          obtain ⟨rfl, rfl, rfl⟩ := h
          exact ⟨hv.1, hy9, hv.2.1, hv.2.2.1, hv.2.2.2.1, le_trans hv.2.2.2.2 hd31⟩
        · rename_i sep timecs
          cases hh : isoHMS timecs with
          | none => rw [hh] at h; exact absurd h (by simp)
          | some hms =>
            obtain ⟨hr, mir, sr, rr⟩ := hms
            rw [hh] at h
            dsimp only [] at h
            split at h
            · simp only [Option.some.injEq, Prod.mk.injEq] at h
              obtain ⟨rfl, rfl, rfl⟩ := h
              exact ⟨hv.1, hy9, hv.2.1, hv.2.2.1, hv.2.2.2.1, le_trans hv.2.2.2.2 hd31⟩
            · exact absurd h (by simp)
      · exact absurd h (by simp)
    · exact absurd h (by simp)
  · exact absurd h (by simp)

theorem agoBranch_ok_shape {cs : List Char} {now : Int} {s : String}
    (h1 : 1 ≤ (dateOfSecs now).1) (h2 : (dateOfSecs now).1 ≤ 9999)
    (h : agoBranch cs now = .ok s) : looseDateShape s = true := by
  have hcur : looseDateShape (current_date_str now) = true := (strfDate_loose now h1 h2).1
  unfold agoBranch at h
  split at h
  · rw [← Except.ok.inj h]; exact hcur
  split at h
  · rw [← Except.ok.inj h]; exact hcur
  split at h
  · rw [← Except.ok.inj h]; exact hcur
  dsimp only [] at h
  split at h
  · rw [← Except.ok.inj h]; exact hcur
  split at h
  · exact absurd h (by simp)
  split at h
  · exact absurd h (by simp)
  rename_i past hd
  obtain ⟨hp1, hp2⟩ := datetimeSub_ok hd
  rw [← Except.ok.inj h]
  exact (strfDate_loose past hp1 hp2).1

theorem agoBranch_err {cs : List Char} {now : Int} {e : PyErr}
    (h : agoBranch cs now = .error e) : ∃ msg, e = .overflowError msg := by
  unfold agoBranch at h
  split at h
  · exact absurd h (by simp)
  split at h
  · exact absurd h (by simp)
  split at h
  · exact absurd h (by simp)
  dsimp only [] at h
  split at h
  · exact absurd h (by simp)
  split at h
  · rename_i e' ht
    obtain rfl := Except.error.inj h
    exact timedeltaOfSecs_err ht
  split at h
  · rename_i e' hd
    obtain rfl := Except.error.inj h
    exact datetimeSub_err hd
  · exact absurd h (by simp)

theorem parse_date_ok_shape {v : PyVal} {now : Int} {s : String}
    (h1 : 1 ≤ (dateOfSecs now).1) (h2 : (dateOfSecs now).1 ≤ 9999)
    (h : parse_date v now = .ok s) : looseDateShape s = true := by
  have hcur : looseDateShape (current_date_str now) = true := (strfDate_loose now h1 h2).1
  cases v with
  | str t =>
    unfold parse_date at h
    dsimp only [] at h
    split at h
    · exact agoBranch_ok_shape h1 h2 h
    split at h
    · rename_i y m d hsp
      obtain ⟨b1, b2, b3, b4, b5, b6⟩ := strptimeDate_bounds hsp
      rw [← Except.ok.inj h]
      exact (fmtYmd_loose _ _ _ (by omega) (by omega) (by omega) (by omega)
        (by omega) (by omega)).1
    split at h
    · rename_i y m d hiso
      obtain ⟨b1, b2, b3, b4, b5, b6⟩ := fromisoformat_bounds hiso
      rw [← Except.ok.inj h]
      exact (fmtYmd_loose _ _ _ (by omega) (by omega) (by omega) (by omega)
        (by omega) (by omega)).1
    · rw [← Except.ok.inj h]; exact hcur
  | int n => rw [← Except.ok.inj h]; exact hcur
  | float l => rw [← Except.ok.inj h]; exact hcur
  | bool b => rw [← Except.ok.inj h]; exact hcur
  | null => rw [← Except.ok.inj h]; exact hcur
  | list xs => rw [← Except.ok.inj h]; exact hcur
  | dict kvs => rw [← Except.ok.inj h]; exact hcur

theorem parse_date_err {v : PyVal} {now : Int} {e : PyErr}
    (h : parse_date v now = .error e) :
    (∃ t, v = .str t ∧ containsSub "ago".data (pyStrip t.data) = true) ∧
    ∃ msg, e = .overflowError msg := by
  cases v with
  | str t =>
    unfold parse_date at h
    dsimp only [] at h
    split at h
    · rename_i hago
      exact ⟨⟨t, rfl, hago⟩, agoBranch_err h⟩
    split at h
    · exact absurd h (by simp)
    split at h
    · exact absurd h (by simp)
    · exact absurd h (by simp)
  | int n => exact absurd h (by simp [parse_date])
  | float l => exact absurd h (by simp [parse_date])
  | bool b => exact absurd h (by simp [parse_date])
  | null => exact absurd h (by simp [parse_date])
  | list xs => exact absurd h (by simp [parse_date])
  | dict kvs => exact absurd h (by simp [parse_date])

/-- Claim C1 (code_bug): for the two-token relative strings the unit
character is taken from the *second* token `"ago"`, so the branch that
the comment "Handle relative dates like '6h ago', '10h ago'" announces is
never taken for them: the function returns the *current* date, not the
shifted one. At the concrete reference instant `2024-01-15T01:00:00Z`
(epoch second 1705280400) the code yields "2024-01-15" for "6h ago",
while the claimed value `(T - 6h).date` is "2024-01-14". -/
theorem claim_C1 :
    (∀ now : Int, parse_date (.str "6h ago") now = .ok (current_date_str now)) ∧
    (∀ now : Int, parse_date (.str "3d ago") now = .ok (current_date_str now)) ∧
    (∀ now : Int, parse_date (.str "10m ago") now = .ok (current_date_str now)) ∧
    current_date_str 1705280400 = "2024-01-15" ∧
    strfDate (1705280400 - 6 * 3600) = "2024-01-14" ∧
    strfDate (1705280400 - 3 * 86400) = "2024-01-12" :=
  ⟨fun _ => rfl, fun _ => rfl, fun _ => rfl, rfl, rfl, rfl⟩

/-- Claim C3, counterexample: `parse_date` is *not* total and does not
always produce a strict `YYYY-MM-DD`: an `'ago'` string with an oversized
magnitude lets `OverflowError` escape (it is absent from the `except`
tuple), and a pre-1000 ISO year is rendered without zero padding by
glibc's `%Y` ("33-01-15", 8 characters). -/
theorem claim_C3_counterexample :
    parse_date (.str "999999999999 h ago") 1705280400 =
      .error (.overflowError "days=41666666666; must have magnitude <= 999999999") ∧
    parse_date (.str "0033-01-15") 1705280400 = .ok "33-01-15" ∧
    ("33-01-15" : String).length ≠ 10 :=
  ⟨rfl, rfl, by decide⟩

/-- Claim C3, amended: whenever the clock's own year is in `datetime`'s
range, every value `parse_date` returns is a date string of shape
`Y{1,4}-MM-DD` (strict `YYYY-MM-DD` exactly when the rendered year has
four digits); an uncaught exception is possible only for a string input
whose stripped text contains "ago", and it is always an `OverflowError`;
for every non-string input the current UTC date is returned. -/
theorem claim_C3 (v : PyVal) (now : Int)
    (h1 : 1 ≤ (dateOfSecs now).1) (h2 : (dateOfSecs now).1 ≤ 9999) :
    (∀ s, parse_date v now = .ok s → looseDateShape s = true) ∧
    (∀ e, parse_date v now = .error e →
      (∃ t, v = .str t ∧ containsSub "ago".data (pyStrip t.data) = true) ∧
      ∃ msg, e = .overflowError msg) ∧
    ((∀ t, v ≠ .str t) → parse_date v now = .ok (current_date_str now)) := by
  refine ⟨fun s hs => parse_date_ok_shape h1 h2 hs, fun e he => parse_date_err he, ?_⟩
  intro hns
  cases v with
  | str t => exact absurd rfl (hns t)
  | int n => rfl
  | float l => rfl
  | bool b => rfl
  | null => rfl
  | list xs => rfl
  | dict kvs => rfl

theorem claim_C3_witness :
    (∀ s, parse_date (.str "N/A") 1705280400 = .ok s → looseDateShape s = true) ∧
    (∀ e, parse_date (.str "N/A") 1705280400 = .error e →
      (∃ t, PyVal.str "N/A" = .str t ∧ containsSub "ago".data (pyStrip t.data) = true) ∧
      ∃ msg, e = .overflowError msg) ∧
    ((∀ t, PyVal.str "N/A" ≠ .str t) →
      parse_date (.str "N/A") 1705280400 = .ok (current_date_str 1705280400)) :=
  claim_C3 (.str "N/A") 1705280400 (by decide) (by decide)

theorem year4_digits (a b c d : Nat) (ha : a < 10) (hb : b < 10) (hc : c < 10)
    (hd : d < 10) :
    year4 [Nat.digitChar a, Nat.digitChar b, Nat.digitChar c, Nat.digitChar d] =
      some (a * 1000 + b * 100 + c * 10 + d) := by
  unfold year4
  dsimp only []
  rw [if_pos ⟨digitChar_isDigit a ha, digitChar_isDigit b hb,
    digitChar_isDigit c hc, digitChar_isDigit d hd⟩]
  simp only [digitsToNat, List.foldl, Option.some.injEq]
  rw [digitChar_toNat a ha, digitChar_toNat b hb, digitChar_toNat c hc,
    digitChar_toNat d hd]
  omega

theorem wsTails_one {c : Char} {rest : List Char} (hc : isPySpace c = true)
    (hr : rest.takeWhile isPySpace = []) : wsTails (c :: rest) = [rest] := by
  unfold wsTails
  rw [List.takeWhile_cons_of_pos hc, hr]
  rfl

theorem strptimeBdY_aug6 (n : Nat) (hn1 : 1000 ≤ n) (hn2 : n < 10000) :
    strptimeBdY ("Aug 6".data ++ ' ' :: natDigits n) = some (n, 8, 6) := by
  have h4 := natDigits_eq4 n hn1 hn2
  have hd1000 : n / 1000 < 10 := by omega
  have htail : (natDigits n).takeWhile isPySpace = [] := by
    rw [h4]
    exact List.takeWhile_cons_of_neg (by rw [digitChar_not_pySpace _ hd1000]; simp)
  have hws1 : wsTails (' ' :: '6' :: ' ' :: natDigits n) = ['6' :: ' ' :: natDigits n] :=
    wsTails_one rfl (List.takeWhile_cons_of_neg (by decide))
  have hws2 : wsTails (' ' :: natDigits n) = [natDigits n] := wsTails_one rfl htail
  have hda : dayAlts ('6' :: ' ' :: natDigits n) = [(6, ' ' :: natDigits n)] := by
    unfold dayAlts
    dsimp only []
    rw [if_neg (by decide), if_neg (by decide), if_neg (by decide),
      if_pos (by decide), if_neg (by decide)]
    rfl
  have hy4 : year4 (natDigits n) = some n := by
    rw [h4, year4_digits (n / 1000) (n / 100 % 10) (n / 10 % 10) (n % 10)
      hd1000 (by omega) (by omega) (by omega)]
    congr 1
    omega
  show strptimeBdY ('A' :: 'u' :: 'g' :: ' ' :: '6' :: ' ' :: natDigits n) = some (n, 8, 6)
  unfold strptimeBdY
  dsimp only []
  rw [show monthOfAbbrev 'A' 'u' 'g' = some 8 from rfl]
  simp only [hws1, hda, hws2, firstSome?, hy4]
  rfl

theorem strptimeDate_aug6 (n : Nat) (hn1 : 1000 ≤ n) (hn2 : n < 10000) :
    strptimeDate ("Aug 6".data ++ ' ' :: natDigits n) = some (n, 8, 6) := by
  unfold strptimeDate
  rw [strptimeBdY_aug6 n hn1 hn2]
  dsimp only []
  rw [if_pos]
  refine ⟨by omega, by omega, ?_⟩
  show 6 ≤ daysInMonth (n : Int) 8
  unfold daysInMonth
  norm_num

/-- Claim C7: `"Aug 6"` takes the `strptime` branch with the current UTC
year injected, yielding `"<year>-08-06"`; the hypothesis pins the year to
the four-digit range, which any contemporary clock satisfies (for a
1–3 digit year the injected year fails the `%Y` regex's four-digit
requirement and the input would fall through to the final fallback). -/
theorem claim_C7 (now : Int) (h1 : 1000 ≤ (dateOfSecs now).1)
    (h2 : (dateOfSecs now).1 ≤ 9999) :
    parse_date (.str "Aug 6") now = .ok (intStr (dateOfSecs now).1 ++ "-08-06") := by
  have e : parse_date (.str "Aug 6") now =
      (match strptimeDate (pyStrip "Aug 6".data ++ ' ' :: (intStr (dateOfSecs now).1).data) with
       | some (y, m, d) => Except.ok (fmtYmd (y : Int) (m : Int) (d : Int))
       | none =>
         match fromisoformat (replaceZ (pyStrip "Aug 6".data)) with
         | some (y, m, d) => Except.ok (fmtYmd (y : Int) (m : Int) (d : Int))
         | none => Except.ok (current_date_str now)) := rfl
  have hys : (intStr (dateOfSecs now).1).data = natDigits (dateOfSecs now).1.toNat := by
    rw [intStr_nonneg _ (by omega)]
  have hstrip : pyStrip "Aug 6".data = "Aug 6".data := rfl
  rw [e, hys, hstrip, strptimeDate_aug6 (dateOfSecs now).1.toNat (by omega) (by omega)]
  dsimp only []
  have hy : ((dateOfSecs now).1.toNat : Int) = (dateOfSecs now).1 :=
    Int.toNat_of_nonneg (by omega)
  rw [hy]
  show Except.ok (intStr (dateOfSecs now).1 ++ "-" ++ two 8 ++ "-" ++ two 6) = _
  rw [String.append_assoc, String.append_assoc, String.append_assoc]
  rfl

theorem claim_C7_witness :
    parse_date (.str "Aug 6") 1705280400 = .ok (intStr (dateOfSecs 1705280400).1 ++ "-08-06") :=
  claim_C7 1705280400 (by decide) (by decide)

/-- Claim C8: conversational prose around the JSON object is discarded by
the first-`\x7b`/last-`\x7d` slice and the payload parses to the single
article titled "A". -/
theorem claim_C8 :
    extract_news_content (replyWithText
        "Here you go:\n\x7b\"news\":[\x7b\"title\":\"A\",\"date\":\"2d ago\"\x7d]\x7d\nEnjoy!") =
      some (.dict [("news", .list [.dict [("title", .str "A"), ("date", .str "2d ago")]])]) :=
  rfl

/-- Claim C2, counterexample: for a reply whose text is exactly the two
concatenated top-level objects, the repair does rewrite the gap to
"\x7d, \x7b", but the repaired slice is *two* comma-joined top-level
values, which `json.loads` rejects ("Extra data"), so `extract` returns
`None` — not a parsed pair of sibling fragments. -/
theorem claim_C2_counterexample :
    fixJson "\x7b\"a\":1\x7d \x7b\"b\":2\x7d".data = "\x7b\"a\":1\x7d, \x7b\"b\":2\x7d".data ∧
    loads "\x7b\"a\":1\x7d, \x7b\"b\":2\x7d".data = none ∧
    extract_news_content (replyWithText "\x7b\"a\":1\x7d \x7b\"b\":2\x7d") = none :=
  ⟨rfl, rfl, rfl⟩

/-- Claim C2, amended: the comma-insertion repair rewrites the gap of
`\x7b"a":1\x7d \x7b"b":2\x7d` to "\x7d, \x7b", but the repaired top-level
slice is not a single JSON document, so `extract` returns `None` for that
text; the repair recovers the two objects as siblings only when the
concatenation occurs inside an enclosing context, e.g. within an array:
`\x7b"news":[\x7b"a":1\x7d \x7b"b":2\x7d]\x7d` parses into the two
sibling fragments. -/
theorem claim_C2 :
    fixJson "\x7b\"a\":1\x7d \x7b\"b\":2\x7d".data = "\x7b\"a\":1\x7d, \x7b\"b\":2\x7d".data ∧
    extract_news_content (replyWithText "\x7b\"a\":1\x7d \x7b\"b\":2\x7d") = none ∧
    extract_news_content (replyWithText "\x7b\"news\":[\x7b\"a\":1\x7d \x7b\"b\":2\x7d]\x7d") =
      some (.dict [("news", .list [.dict [("a", .int 1)], .dict [("b", .int 2)]])]) :=
  ⟨rfl, rfl, rfl⟩

/-- Claim C9: the repair is applied blindly to the slice, also inside
string literals. The text `\x7b"t":"\x7d \x7b"\x7d` is already valid JSON
whose field holds the three characters "\x7d \x7b", yet `extract` returns
the field rewritten to "\x7d, \x7b". -/
theorem claim_C9 :
    loads "\x7b\"t\":\"\x7d \x7b\"\x7d".data = some (.dict [("t", .str "\x7d \x7b")]) ∧
    extract_news_content (replyWithText "\x7b\"t\":\"\x7d \x7b\"\x7d") =
      some (.dict [("t", .str "\x7d, \x7b")]) ∧
    ("\x7d, \x7b" : String) ≠ "\x7d \x7b" :=
  ⟨rfl, rfl, by decide⟩

/-- Claim C5: every failure the extractor can encounter — a response that
is not a non-empty list or lacks the nested `text` path (both collapse to
`rawContentOf _ = none`), a text without a `\x7b` or without a `\x7d`, or
a repaired slice that does not parse — yields `None` rather than an
exception. -/
theorem claim_C5 (resp : PyVal)
    (h : rawContentOf resp = none
      ∨ (∃ t, rawContentOf resp = some t ∧
          (strFind t.data '\x7b' = -1 ∨ strRfind t.data '\x7d' = -1))
      ∨ (∃ t, rawContentOf resp = some t ∧
          loads (fixJson ((t.data.take ((strRfind t.data '\x7d').toNat + 1)).drop
            (strFind t.data '\x7b').toNat)) = none)) :
    extract_news_content resp = none := by
  unfold extract_news_content
  rcases h with h | ⟨t, ht, hbr⟩ | ⟨t, ht, hl⟩
  · rw [h]
  · rw [ht]
    dsimp only []
    rw [if_pos hbr]
  · rw [ht]
    dsimp only []
    split
    · rfl
    · exact hl

theorem claim_C5_witness : extract_news_content (.str "not a list") = none :=
  claim_C5 (.str "not a list") (.inl rfl)

/-- Claim C6: when the create-session response has no `id` key,
`session_id` is `None` (falsy), so the handler — for *every* possible
conversation response, i.e. without consulting `run_conversation` at
all — returns HTTP 500 with exactly "Failed to get session ID from
response". -/
theorem claim_C6 (skvs : List (String × PyVal)) (conv : PyVal) (now : Int)
    (h : lookupKvs skvs "id" = none) :
    mainHandler (.dict skvs) conv now =
      ⟨"Failed to get session ID from response", 500, none⟩ := by
  unfold mainHandler mainTry mainWithSession
  dsimp only []
  rw [h]
  rfl

theorem claim_C6_witness :
    mainHandler (.dict [("session", .str "s")]) (.null) 1705280400 =
      ⟨"Failed to get session ID from response", 500, none⟩ :=
  claim_C6 [("session", .str "s")] .null 1705280400 rfl

/-! ## Python dict update lemmas (`dict[k] = v` semantics) -/

theorem lookupKvs_dictInsert_self (kvs : List (String × PyVal)) (k : String) (v : PyVal) :
    lookupKvs (dictInsert kvs k v) k = some v := by
  induction kvs with
  | nil => simp [dictInsert, lookupKvs]
  | cons kv rest ih =>
    obtain ⟨k', v'⟩ := kv
    unfold dictInsert
    split
    · rename_i he
      unfold lookupKvs
      rw [if_pos rfl]
    · unfold lookupKvs
      rename_i he
      rw [if_neg he]
      exact ih

theorem lookupKvs_dictInsert_ne (kvs : List (String × PyVal)) (k k' : String) (v : PyVal)
    (h : k' ≠ k) : lookupKvs (dictInsert kvs k v) k' = lookupKvs kvs k' := by
  induction kvs with
  | nil =>
    unfold dictInsert lookupKvs
    rw [if_neg (Ne.symm h)]
    rfl
  | cons kv rest ih =>
    obtain ⟨k0, v0⟩ := kv
    unfold dictInsert
    split
    · rename_i he
      subst he
      unfold lookupKvs
      rw [if_neg (fun he' => h he'.symm), if_neg (fun he' => h he'.symm)]
    · unfold lookupKvs
      split
      · rfl
      · exact ih

theorem dictInsert_keys (kvs : List (String × PyVal)) (k : String) (v : PyVal)
    (h : (lookupKvs kvs k).isSome = true) :
    (dictInsert kvs k v).map Prod.fst = kvs.map Prod.fst := by
  induction kvs with
  | nil => simp [lookupKvs] at h
  | cons kv rest ih =>
    obtain ⟨k0, v0⟩ := kv
    unfold dictInsert
    split
    · rename_i he
      subst he
      simp
    · rename_i he
      unfold lookupKvs at h
      rw [if_neg he] at h
      simp [ih h]

theorem lookupKvs_isEmpty_false {kvs : List (String × PyVal)} {k : String} {w : PyVal}
    (h : lookupKvs kvs k = some w) : kvs.isEmpty = false := by
  cases kvs with
  | nil => simp [lookupKvs] at h
  | cons kv rest => rfl

/-! ## The success path of `main` -/

theorem normArticle_dict {akvs : List (String × PyVal)} {now : Int} {s : String}
    (hp : parse_date ((lookupKvs akvs "date").getD .null) now = .ok s) :
    normArticle (.dict akvs) now = .ok (.dict (dictInsert akvs "date" (.str s))) := by
  unfold normArticle
  dsimp only []
  rw [hp]

theorem normArticleD_dict {akvs : List (String × PyVal)} {now : Int} {s : String}
    (hp : parse_date ((lookupKvs akvs "date").getD .null) now = .ok s) :
    normArticleD (.dict akvs) now = .dict (dictInsert akvs "date" (.str s)) := by
  unfold normArticleD
  dsimp only []
  rw [hp]

theorem normArticles_ok {arts : List PyVal} {now : Int}
    (h : ∀ a ∈ arts, ∃ akvs s, a = PyVal.dict akvs ∧
      parse_date ((lookupKvs akvs "date").getD .null) now = .ok s) :
    normArticles arts now = .ok (arts.map (fun a => normArticleD a now)) := by
  induction arts with
  | nil => rfl
  | cons a rest ih =>
    obtain ⟨akvs, s, rfl, hp⟩ := h a (by simp)
    unfold normArticles
    rw [normArticle_dict hp, ih (fun a ha => h a (by simp [ha])),
      List.map_cons, normArticleD_dict hp]

theorem mainHandler_success (skvs kvs : List (String × PyVal)) (conv : PyVal) (now : Int)
    (arts : List PyVal)
    (hsid : truthy ((lookupKvs skvs "id").getD .null) = true)
    (hx : extract_news_content conv = some (.dict kvs))
    (hnews : lookupKvs kvs "news" = some (.list arts))
    (harts : ∀ a ∈ arts, ∃ akvs s, a = PyVal.dict akvs ∧
      parse_date ((lookupKvs akvs "date").getD .null) now = .ok s) :
    mainHandler (.dict skvs) conv now =
      ⟨dumps (.dict (dictInsert kvs "news"
          (.list (arts.map (fun a => normArticleD a now))))),
       200, some "application/json"⟩ := by
  unfold mainHandler mainTry mainWithSession
  dsimp only []
  rw [if_pos hsid, hx]
  dsimp only []
  have htr : truthy (PyVal.dict kvs) = true := by
    unfold truthy
    dsimp only []
    rw [lookupKvs_isEmpty_false hnews]
    rfl
  rw [if_pos htr]
  have hpc : pyContains (PyVal.dict kvs) "news" = .ok true := by
    unfold pyContains
    dsimp only []
    rw [hnews]
    rfl
  rw [hpc]
  dsimp only []
  have hnv : newsValOf (PyVal.dict kvs) = PyVal.list arts := by
    unfold newsValOf
    dsimp only []
    rw [hnews]
    rfl
  have hnn : normNews (newsValOf (PyVal.dict kvs)) now =
      .ok (.list (arts.map (fun a => normArticleD a now))) := by
    rw [hnv]
    unfold normNews
    dsimp only []
    rw [normArticles_ok harts]
  rw [hnn]
  rfl

/-- Claim C4: on the success path — a truthy session id, an extracted
dict payload with a `news` list, every article a dict whose date
normalizes without an escaped exception — the handler returns HTTP 200
with the serialized payload in which exactly the `news` key was updated
(other payload keys and their order untouched), the articles are mapped
in order, and each article keeps every non-`date` field while its `date`
holds the normalized string. -/
theorem claim_C4 (skvs kvs : List (String × PyVal)) (conv : PyVal) (now : Int)
    (arts : List PyVal)
    (hsid : truthy ((lookupKvs skvs "id").getD .null) = true)
    (hx : extract_news_content conv = some (.dict kvs))
    (hnews : lookupKvs kvs "news" = some (.list arts))
    (harts : ∀ a ∈ arts, ∃ akvs s, a = PyVal.dict akvs ∧
      parse_date ((lookupKvs akvs "date").getD .null) now = .ok s) :
    mainHandler (.dict skvs) conv now =
      ⟨dumps (.dict (dictInsert kvs "news"
          (.list (arts.map (fun a => normArticleD a now))))),
       200, some "application/json"⟩ ∧
    (∀ k, k ≠ "news" →
      lookupKvs (dictInsert kvs "news"
        (.list (arts.map (fun a => normArticleD a now)))) k = lookupKvs kvs k) ∧
    (dictInsert kvs "news" (.list (arts.map (fun a => normArticleD a now)))).map Prod.fst
      = kvs.map Prod.fst ∧
    (∀ akvs, PyVal.dict akvs ∈ arts → ∃ s,
      parse_date ((lookupKvs akvs "date").getD .null) now = .ok s ∧
      normArticleD (.dict akvs) now = .dict (dictInsert akvs "date" (.str s)) ∧
      lookupKvs (dictInsert akvs "date" (.str s)) "date" = some (.str s) ∧
      ∀ k, k ≠ "date" →
        lookupKvs (dictInsert akvs "date" (.str s)) k = lookupKvs akvs k) := by
  refine ⟨mainHandler_success skvs kvs conv now arts hsid hx hnews harts,
    fun k hk => lookupKvs_dictInsert_ne kvs "news" k _ hk,
    dictInsert_keys kvs "news" _ (by rw [hnews]; rfl), ?_⟩
  intro akvs hmem
  obtain ⟨akvs', s, heq, hp⟩ := harts _ hmem
  obtain rfl : akvs = akvs' := PyVal.dict.inj heq
  exact ⟨s, hp, normArticleD_dict hp, lookupKvs_dictInsert_self _ _ _,
    fun k hk => lookupKvs_dictInsert_ne _ _ _ _ hk⟩

theorem claim_C4_witness :
    mainHandler (.dict [("id", .str "s1")])
        (replyWithText "\x7b\"news\":[\x7b\"title\":\"A\",\"date\":\"x\"\x7d]\x7d")
        1705280400 =
      ⟨dumps (.dict (dictInsert [("news",
          .list [.dict [("title", .str "A"), ("date", .str "x")]])] "news"
          (.list ([PyVal.dict [("title", .str "A"), ("date", .str "x")]].map
            (fun a => normArticleD a 1705280400))))),
       200, some "application/json"⟩ ∧
    (∀ k, k ≠ "news" →
      lookupKvs (dictInsert [("news",
        .list [.dict [("title", .str "A"), ("date", .str "x")]])] "news"
        (.list ([PyVal.dict [("title", .str "A"), ("date", .str "x")]].map
          (fun a => normArticleD a 1705280400)))) k =
      lookupKvs [("news", .list [.dict [("title", .str "A"), ("date", .str "x")]])] k) ∧
    (dictInsert [("news", .list [.dict [("title", .str "A"), ("date", .str "x")]])] "news"
      (.list ([PyVal.dict [("title", .str "A"), ("date", .str "x")]].map
        (fun a => normArticleD a 1705280400)))).map Prod.fst
      = [("news", PyVal.list [.dict [("title", .str "A"), ("date", .str "x")]])].map
          Prod.fst ∧
    (∀ akvs, PyVal.dict akvs ∈ [PyVal.dict [("title", .str "A"), ("date", .str "x")]] →
      ∃ s, parse_date ((lookupKvs akvs "date").getD .null) 1705280400 = .ok s ∧
      normArticleD (.dict akvs) 1705280400 = .dict (dictInsert akvs "date" (.str s)) ∧
      lookupKvs (dictInsert akvs "date" (.str s)) "date" = some (.str s) ∧
      ∀ k, k ≠ "date" →
        lookupKvs (dictInsert akvs "date" (.str s)) k = lookupKvs akvs k) :=
  claim_C4 [("id", .str "s1")]
    [("news", .list [.dict [("title", .str "A"), ("date", .str "x")]])]
    (replyWithText "\x7b\"news\":[\x7b\"title\":\"A\",\"date\":\"x\"\x7d]\x7d")
    1705280400
    [PyVal.dict [("title", .str "A"), ("date", .str "x")]]
    rfl rfl rfl
    (by
      intro a ha
      simp only [List.mem_singleton] at ha
      subst ha
      exact ⟨[("title", .str "A"), ("date", .str "x")], "2024-01-15", rfl, rfl⟩)

/-- Claim C10: an article dict with no `date` key does not break the
handler: `article.get('date')` reads `None`, which is not a string, so
`parse_date` falls back to the current UTC date; the handler still
answers HTTP 200 and the article gains a `date` field holding the
current date in strict `YYYY-MM-DD` form. -/
theorem claim_C10 (skvs kvs : List (String × PyVal)) (conv : PyVal) (now : Int)
    (arts : List PyVal) (akvs : List (String × PyVal))
    (hsid : truthy ((lookupKvs skvs "id").getD .null) = true)
    (hx : extract_news_content conv = some (.dict kvs))
    (hnews : lookupKvs kvs "news" = some (.list arts))
    (harts : ∀ a ∈ arts, ∃ akvs s, a = PyVal.dict akvs ∧
      parse_date ((lookupKvs akvs "date").getD .null) now = .ok s)
    (_hmem : PyVal.dict akvs ∈ arts) (hnod : lookupKvs akvs "date" = none)
    (hy1 : 1000 ≤ (dateOfSecs now).1) (hy2 : (dateOfSecs now).1 ≤ 9999) :
    parse_date .null now = .ok (current_date_str now) ∧
    mainHandler (.dict skvs) conv now =
      ⟨dumps (.dict (dictInsert kvs "news"
          (.list (arts.map (fun a => normArticleD a now))))),
       200, some "application/json"⟩ ∧
    normArticleD (.dict akvs) now =
      .dict (dictInsert akvs "date" (.str (current_date_str now))) ∧
    lookupKvs (dictInsert akvs "date" (.str (current_date_str now))) "date"
      = some (.str (current_date_str now)) ∧
    looseDateShape (current_date_str now) = true ∧
    (current_date_str now).length = 10 := by
  have hp : parse_date ((lookupKvs akvs "date").getD .null) now =
      .ok (current_date_str now) := by
    rw [hnod]
    rfl
  exact ⟨rfl, mainHandler_success skvs kvs conv now arts hsid hx hnews harts,
    normArticleD_dict hp, lookupKvs_dictInsert_self _ _ _,
    (strfDate_loose now (by omega) hy2).1, (strfDate_loose now (by omega) hy2).2 hy1⟩

theorem claim_C10_witness :
    parse_date .null 1705280400 = .ok (current_date_str 1705280400) ∧
    mainHandler (.dict [("id", .str "s1")])
        (replyWithText "\x7b\"news\":[\x7b\"title\":\"NoDate\"\x7d]\x7d") 1705280400 =
      ⟨dumps (.dict (dictInsert [("news", .list [.dict [("title", .str "NoDate")]])] "news"
          (.list ([PyVal.dict [("title", .str "NoDate")]].map
            (fun a => normArticleD a 1705280400))))),
       200, some "application/json"⟩ ∧
    normArticleD (.dict [("title", .str "NoDate")]) 1705280400 =
      .dict (dictInsert [("title", .str "NoDate")] "date"
        (.str (current_date_str 1705280400))) ∧
    lookupKvs (dictInsert [("title", .str "NoDate")] "date"
        (.str (current_date_str 1705280400))) "date"
      = some (.str (current_date_str 1705280400)) ∧
    looseDateShape (current_date_str 1705280400) = true ∧
    (current_date_str 1705280400).length = 10 :=
  claim_C10 [("id", .str "s1")] [("news", .list [.dict [("title", .str "NoDate")]])]
    (replyWithText "\x7b\"news\":[\x7b\"title\":\"NoDate\"\x7d]\x7d") 1705280400
    [PyVal.dict [("title", .str "NoDate")]] [("title", .str "NoDate")]
    rfl rfl rfl
    (by
      intro a ha
      simp only [List.mem_singleton] at ha
      subst ha
      exact ⟨[("title", .str "NoDate")], "2024-01-15", rfl, rfl⟩)
    (by simp) rfl (by decide) (by decide)

end NewsAgent
